import Mathlib

/-!
Verification of the filterdns-client core against its design specification.

The Go sources are shallowly embedded: pure functions become Lean functions,
stateful code becomes explicit state passing over record types, fallible code
returns `Except`, and the outcomes of external commands and file-system
primitives are supplied by explicit oracle records.  Strings are modelled with
ASCII semantics (DNS names, addresses and the configuration values exercised
here are ASCII).
-/

deriving instance DecidableEq for Except

namespace FilterDNS

/-! ## String helpers (ASCII models of the Go `strings` functions used) -/

/-- ASCII lowercasing of one character (model of `unicode.ToLower` on ASCII). -/
def lowerChar (c : Char) : Char :=
  if 'A' ≤ c ∧ c ≤ 'Z' then Char.ofNat (c.toNat + 32) else c

/-- Model of `strings.ToLower` on ASCII strings. -/
def lowerStr (s : String) : String :=
  String.mk (s.data.map lowerChar)

/-- Model of `strings.HasSuffix`. -/
def strEnds (s suf : String) : Bool :=
  suf.data.isSuffixOf s.data

/-- Model of `strings.HasPrefix`. -/
def strStarts (s p : String) : Bool :=
  p.data.isPrefixOf s.data

/-- Model of `strings.TrimSuffix s "."`: drops one trailing dot if present. -/
def trimDot (s : String) : String :=
  if strEnds s "." then String.mk s.data.dropLast else s

/-- Drop the first `n` characters of a string (model of Go slicing `s[n:]`
on ASCII strings, where bytes and characters coincide). -/
def strDrop (s : String) (n : Nat) : String :=
  String.mk (s.data.drop n)

/-! ## Forwarder matcher (src/internal/dns/forwarder.go) -/

/-- A split-DNS forwarder rule as configured (config.Forwarder). -/
structure Forwarder where
  domain : String
  server : String
deriving DecidableEq

/-- A compiled rule of the matcher (forwarderRule). -/
structure forwarderRule where
  pattern : String
  server : String
  isWild : Bool
deriving DecidableEq

/-- Compilation of one configured forwarder into a rule, as performed inside
the `NewForwarderMatcher` loop: normalize the domain to lowercase, strip one
trailing dot, record and strip a leading wildcard. -/
def compileRule (f : Forwarder) : forwarderRule :=
  let domain := lowerStr (trimDot f.domain)
  let isWild := strStarts domain "*."
  let domain := if isWild then strDrop domain 2 else domain
  { pattern := domain, server := f.server, isWild := isWild }

/-- Embedding of `NewForwarderMatcher`: compiles the rules in input order. -/
def NewForwarderMatcher (forwarders : List Forwarder) : List forwarderRule :=
  forwarders.map compileRule

/-- The rule walk inside `Match`: first rule whose pattern equals the
 (already normalized) domain or is a dot-preceded suffix of it.  The two
branches mirror the Go code's separate wildcard / non-wildcard arms, whose
conditions are identical. -/
def matchRules : List forwarderRule → String → String
  | [], _ => ""
  | rule :: rest, domain =>
    if rule.isWild then
      if (domain == rule.pattern) || strEnds domain ("." ++ rule.pattern) then rule.server
      else matchRules rest domain
    else
      if (domain == rule.pattern) || strEnds domain ("." ++ rule.pattern) then rule.server
      else matchRules rest domain

/-- Embedding of `ForwarderMatcher.Match`: lowercases the query name, strips a
trailing dot, and walks the rules in order; `""` encodes "no match". -/
def Match (rules : List forwarderRule) (domain : String) : String :=
  matchRules rules (lowerStr (trimDot domain))

/-- Specification-side predicate: the normalized name hits the pattern when it
equals it or has it as a suffix preceded by a dot. -/
def patternHits (d pat : String) : Bool :=
  (d == pat) || strEnds d ("." ++ pat)

/-- Specification-side normalization of a configured pattern: lowercase, strip
one trailing dot, strip a leading `*.`. -/
def normPattern (domain : String) : String :=
  let d := lowerStr (trimDot domain)
  if strStarts d "*." then strDrop d 2 else d

/-- Specification-side matcher: the server of the first rule, in input order,
whose normalized pattern hits the normalized name; `""` when none does. -/
def specMatch (fs : List Forwarder) (n : String) : String :=
  (((fs.find? fun f => patternHits (lowerStr (trimDot n)) (normPattern f.domain)).map
    Forwarder.server).getD "")

/-- The S1 rule set from the specification. -/
def rulesS1 : List Forwarder :=
  [{ domain := "ts.net", server := "100.100.100.100" },
   { domain := "*.corp", server := "10.0.0.53" }]

/-- The two arms of the Go rule loop test the same condition, so one step of
the walk is an if-then-else on that condition. -/
theorem matchRules_cons (r : forwarderRule) (rest : List forwarderRule) (d : String) :
    matchRules (r :: rest) d =
      if (d == r.pattern) || strEnds d ("." ++ r.pattern) then r.server
      else matchRules rest d := by
  cases hw : r.isWild <;> simp [matchRules, hw]

/-- The rule walk returns the server of the first rule hit, `""` otherwise. -/
theorem matchRules_eq_find (rs : List forwarderRule) (d : String) :
    matchRules rs d =
      ((rs.find? fun r => patternHits d r.pattern).map forwarderRule.server).getD "" := by
  induction rs with
  | nil => rfl
  | cons r rest ih =>
    rw [matchRules_cons, List.find?_cons]
    by_cases h : patternHits d r.pattern = true
    · rw [if_pos (by simpa [patternHits] using h), h]
      rfl
    · rw [if_neg (by simpa [patternHits] using h), ih]
      simp [h]

/-- C7: `Match` is deterministic and order-preserving: over any rule set built
by `NewForwarderMatcher` it returns the server of the first rule, in input
order, whose normalized (lowercased, trailing-dot-stripped, wildcard-stripped)
pattern equals the normalized name or is a suffix of it preceded by a dot
(that is what `specMatch` computes via `List.find?`), and it returns no match
(`""`) on the empty rule set. -/
theorem C7_match_order_preserving (fs : List Forwarder) (n : String) :
    Match (NewForwarderMatcher fs) n = specMatch fs n ∧
      Match (NewForwarderMatcher []) n = "" := by
  refine ⟨?_, rfl⟩
  unfold Match NewForwarderMatcher specMatch
  rw [matchRules_eq_find, List.find?_map, Option.map_map]
  rfl

/-- C2 counterexample: on the S1 rule set, `Match` applied to the bare name
`corp` returns `10.0.0.53`, not the claimed empty result: the wildcard
branch also tests equality of the stripped pattern with the whole name. -/
theorem C2_cex_corp_matches :
    Match (NewForwarderMatcher rulesS1) "corp" = "10.0.0.53" ∧
      ¬ Match (NewForwarderMatcher rulesS1) "corp" = "" := by
  decide

/-- C2 (amended): on the S1 rule set, `Match "corp"` returns `10.0.0.53`
(the `*.corp` rule's equality test hits the bare domain after the wildcard
is stripped), and `Match "a.b.ts.net"` returns `100.100.100.100`. -/
theorem C2_s1_scenario :
    Match (NewForwarderMatcher rulesS1) "corp" = "10.0.0.53" ∧
      Match (NewForwarderMatcher rulesS1) "a.b.ts.net" = "100.100.100.100" := by
  decide

/-! ## DNS message model and cache (src/internal/dns/cache.go)

Times and TTLs are modelled in whole seconds (`Nat`); `dns.Msg` is modelled by
the fields the embedded code inspects (transaction id, rcode, question
section, answer records with TTL and typed rdata). -/

/-- The resource-record data the proxy inspects: A and AAAA records carry
their address bytes, everything else is opaque. -/
inductive Rdata where
  | A (ip : List Nat)
  | AAAA (ip : List Nat)
  | other
deriving DecidableEq

/-- An answer resource record (header TTL plus rdata). -/
structure RR where
  ttl : Nat
  rdata : Rdata
deriving DecidableEq

/-- Model of `dns.Msg`: the fields used by the cache and the proxy. -/
structure Msg where
  id : Nat
  rcode : Nat
  question : List (String × Nat)
  answer : List RR
deriving DecidableEq

/-- Model of the `dns.TypeToString` table on the common types; a missing
entry yields `""`, as a Go map lookup does. -/
def TypeToString (qtype : Nat) : String :=
  if qtype = 1 then "A" else if qtype = 2 then "NS" else if qtype = 5 then "CNAME"
  else if qtype = 6 then "SOA" else if qtype = 12 then "PTR" else if qtype = 15 then "MX"
  else if qtype = 16 then "TXT" else if qtype = 28 then "AAAA" else if qtype = 33 then "SRV"
  else ""

/-- Embedding of `cacheKey`. -/
def cacheKey (domain : String) (qtype : Nat) : String :=
  domain ++ ":" ++ TypeToString qtype

/-- A stored cache entry (`cacheEntry`). -/
structure cacheEntry where
  msg : Msg
  expiresAt : Nat
deriving DecidableEq

/-- The cache state (`Cache`): the Go map is modelled as an association list
with distinct keys; `ttl` is the default TTL in seconds. -/
structure Cache where
  entries : List (String × cacheEntry)
  ttl : Nat
  maxSize : Nat
deriving DecidableEq

/-- Embedding of `NewCache` (the cleanup goroutine is not modelled; no claim
depends on the background purge). -/
def NewCache (ttl maxSize : Nat) : Cache :=
  { entries := [], ttl := ttl, maxSize := maxSize }

/-- Association-list lookup (Go map read). -/
def lookupA : List (String × cacheEntry) → String → Option cacheEntry
  | [], _ => none
  | (k2, v) :: rest, k => if k2 = k then some v else lookupA rest k

/-- Association-list insert-or-replace (Go map write). -/
def upsertA : List (String × cacheEntry) → String → cacheEntry → List (String × cacheEntry)
  | [], k, v => [(k, v)]
  | (k2, v2) :: rest, k, v =>
    if k2 = k then (k, v) :: rest else (k2, v2) :: upsertA rest k v

/-- Association-list delete (Go map delete). -/
def removeA : List (String × cacheEntry) → String → List (String × cacheEntry)
  | [], _ => []
  | (k2, v2) :: rest, k => if k2 = k then rest else (k2, v2) :: removeA rest k

/-- Embedding of `Cache.Get`: a hit returns a copy of the stored message; the
entry is treated as expired only when `now` is strictly after `expiresAt`
(Go `time.Now().After(entry.expiresAt)`). -/
def CacheGet (now : Nat) (c : Cache) (domain : String) (qtype : Nat) : Option Msg :=
  match lookupA c.entries (cacheKey domain qtype) with
  | none => none
  | some entry => if entry.expiresAt < now then none else some entry.msg

/-- The scan inside `evictOldest`: tracks the key with the smallest
`expiresAt`, with `""` as the not-yet-seen sentinel, exactly as the Go loop
does. -/
def evictScan : List (String × cacheEntry) → String → Nat → String × Nat
  | [], oldestKey, oldestTime => (oldestKey, oldestTime)
  | (k, e) :: rest, oldestKey, oldestTime =>
    if oldestKey = "" ∨ e.expiresAt < oldestTime then evictScan rest k e.expiresAt
    else evictScan rest oldestKey oldestTime

/-- Embedding of `Cache.evictOldest`. -/
def evictOldest (c : Cache) : Cache :=
  let p := evictScan c.entries "" 0
  if p.1 = "" then c else { c with entries := removeA c.entries p.1 }

/-- The TTL computation at the top of `Cache.Set`: the default TTL, clamped
down by the smallest answer TTL, which is itself first clamped at 3600. -/
def computeTTL (cttl : Nat) (msg : Msg) : Nat :=
  if msg.answer.length > 0 then
    let minTTL := msg.answer.foldl (fun acc rr => if rr.ttl < acc then rr.ttl else acc) 3600
    if minTTL < cttl then minTTL else cttl
  else cttl

/-- Embedding of `Cache.Set`: computes the TTL, drops the insertion when it is
below 10 seconds, evicts when at capacity, then stores a copy of the message
with its expiry instant. -/
def CacheSet (now : Nat) (c : Cache) (domain : String) (qtype : Nat) (msg : Msg) : Cache :=
  let ttl := computeTTL c.ttl msg
  if ttl < 10 then c
  else
    let c1 := if c.entries.length ≥ c.maxSize then evictOldest c else c
    { c1 with
      entries := upsertA c1.entries (cacheKey domain qtype) { msg := msg, expiresAt := now + ttl } }

/-- The smallest TTL among the answer records (specification side; only used
for nonempty answers). -/
def minAnswerTTL : List RR → Nat
  | [] => 0
  | rr :: rest => rest.foldl (fun acc r => min acc r.ttl) rr.ttl

/-- The Go update `if rr.Ttl < minTTL { minTTL = rr.Ttl }` is a running
minimum. -/
theorem foldl_ttl_min (l : List RR) (a : Nat) :
    l.foldl (fun acc rr => if rr.ttl < acc then rr.ttl else acc) a =
      l.foldl (fun acc r => min acc r.ttl) a := by
  induction l generalizing a with
  | nil => rfl
  | cons rr rest ih =>
    simp only [List.foldl_cons]
    rw [show (if rr.ttl < a then rr.ttl else a) = min a rr.ttl by
      split_ifs <;> omega]
    exact ih _

/-- A minimum fold commutes with lowering its seed. -/
theorem foldl_min_init (l : List RR) (a b : Nat) :
    l.foldl (fun acc r => min acc r.ttl) (min a b) =
      min a (l.foldl (fun acc r => min acc r.ttl) b) := by
  induction l generalizing b with
  | nil => rfl
  | cons rr rest ih =>
    simp only [List.foldl_cons, min_assoc]
    exact ih _

/-- With the proxy's 300-second default, the computed TTL is exactly the
minimum of the default TTL and the smallest answer TTL (the 3600 cap in the
code is absorbed because 300 ≤ 3600). -/
theorem computeTTL_300 (msg : Msg) (h : ¬ msg.answer = []) :
    computeTTL 300 msg = min 300 (minAnswerTTL msg.answer) := by
  match hAns : msg.answer with
  | [] => exact absurd hAns h
  | rr :: rest =>
    simp only [computeTTL, hAns, List.length_cons, gt_iff_lt, Nat.succ_pos, if_true,
      foldl_ttl_min, List.foldl_cons, minAnswerTTL]
    rw [show (if rr.ttl < 3600 then rr.ttl else 3600) = min (3600 : Nat) rr.ttl by
      split_ifs <;> omega]
    rw [foldl_min_init]
    generalize List.foldl (fun acc r => min acc r.ttl) rr.ttl rest = F
    rcases le_or_lt 300 F with h | h
    · rw [min_eq_left h, if_neg (not_lt.mpr (le_min (by omega) h))]
    · rw [min_eq_right (by omega : F ≤ 3600), if_pos h, min_eq_right h.le]

/-- Reading back the key just written returns the new entry. -/
theorem lookupA_upsertA (l : List (String × cacheEntry)) (k : String) (v : cacheEntry) :
    lookupA (upsertA l k v) k = some v := by
  induction l with
  | nil => simp [upsertA, lookupA]
  | cons p rest ih =>
    obtain ⟨k2, v2⟩ := p
    by_cases h : k2 = k
    · simp [upsertA, lookupA, h]
    · simp [upsertA, lookupA, h, ih]

/-- C5 (amended): for insertions into a cache with the proxy's 300-second
default TTL and a nonempty answer section, the effective TTL is the minimum
of the default TTL and the smallest answer TTL; below 10 seconds the
insertion is dropped; once stored, a read of the same (name, qtype) key at or
before the expiry instant returns the response and a read strictly after the
expiry instant returns a miss (the Go expiry test `time.Now().After` is
strict, so the instant itself is still a hit). -/
theorem C5_cache_ttl_expiry (c : Cache) (hc : c.ttl = 300) (now : Nat) (domain : String)
    (qtype : Nat) (msg : Msg) (hans : ¬ msg.answer = []) :
    computeTTL c.ttl msg = min 300 (minAnswerTTL msg.answer) ∧
    (computeTTL c.ttl msg < 10 → CacheSet now c domain qtype msg = c) ∧
    (10 ≤ computeTTL c.ttl msg →
      (∀ t, t ≤ now + computeTTL c.ttl msg →
        CacheGet t (CacheSet now c domain qtype msg) domain qtype = some msg) ∧
      (∀ t, now + computeTTL c.ttl msg < t →
        CacheGet t (CacheSet now c domain qtype msg) domain qtype = none)) := by
  refine ⟨hc ▸ computeTTL_300 msg hans, fun h10 => ?_, fun h10 => ⟨fun t ht => ?_, fun t ht => ?_⟩⟩
  · simp only [CacheSet, if_pos h10]
  · simp only [CacheSet, if_neg (not_lt.mpr h10), CacheGet, lookupA_upsertA]
    rw [if_neg (not_lt.mpr ht)]
  · simp only [CacheSet, if_neg (not_lt.mpr h10), CacheGet, lookupA_upsertA]
    rw [if_pos ht]

/-- A response whose single answer record carries a 300-second TTL. -/
def msgTTL300 : Msg :=
  { id := 7, rcode := 0, question := [("example.com.", 1)],
    answer := [{ ttl := 300, rdata := Rdata.A [93, 184, 216, 34] }] }

/-- C5 counterexample: insert at time 0 with effective TTL 300 (expiry instant
300); the claim says a read at the expiry time is a miss, but the code's
strict `After` comparison makes the read at time 300 a hit. -/
theorem C5_cex_hit_at_expiry :
    computeTTL (NewCache 300 10000).ttl msgTTL300 = 300 ∧
      CacheGet 300 (CacheSet 0 (NewCache 300 10000) "example.com" 1 msgTTL300)
        "example.com" 1 = some msgTTL300 := by
  decide

/-- C5 witness: the amended theorem applied to a concrete insertion with
TTL 300 at time 0: a read at 299 hits, a read at 301 misses. -/
theorem C5_witness :
    (NewCache 300 10000).ttl = 300 ∧ ¬ msgTTL300.answer = [] ∧
    CacheGet 299 (CacheSet 0 (NewCache 300 10000) "example.com" 1 msgTTL300)
      "example.com" 1 = some msgTTL300 ∧
    CacheGet 301 (CacheSet 0 (NewCache 300 10000) "example.com" 1 msgTTL300)
      "example.com" 1 = none := by
  refine ⟨rfl, by decide, ?_, ?_⟩
  · exact ((C5_cache_ttl_expiry (NewCache 300 10000) rfl 0 "example.com" 1 msgTTL300
      (by decide)).2.2 (by decide)).1 299 (by decide)
  · exact ((C5_cache_ttl_expiry (NewCache 300 10000) rfl 0 "example.com" 1 msgTTL300
      (by decide)).2.2 (by decide)).2 301 (by decide)

/-- The eviction scan, seeded with a non-sentinel candidate, returns a
non-sentinel key whose recorded time is a lower bound of the seed and of
every scanned entry, and which is either the seed or one of the entries. -/
theorem evictScan_spec (l : List (String × cacheEntry)) (k0 : String) (t0 : Nat)
    (hk0 : ¬ k0 = "") (hl : ∀ p ∈ l, ¬ p.1 = "") :
    ¬ (evictScan l k0 t0).1 = "" ∧
    (evictScan l k0 t0).2 ≤ t0 ∧
    (∀ p ∈ l, (evictScan l k0 t0).2 ≤ p.2.expiresAt) ∧
    (evictScan l k0 t0 = (k0, t0) ∨
      ∃ p ∈ l, (evictScan l k0 t0).1 = p.1 ∧ (evictScan l k0 t0).2 = p.2.expiresAt) := by
  induction l generalizing k0 t0 with
  | nil => exact ⟨hk0, le_refl _, by simp, Or.inl rfl⟩
  | cons q rest ih =>
    obtain ⟨k, e⟩ := q
    have hk : ¬ k = "" := hl (k, e) (by simp)
    have hrest : ∀ p ∈ rest, ¬ p.1 = "" := fun p hp => hl p (List.mem_cons_of_mem _ hp)
    by_cases hcond : k0 = "" ∨ e.expiresAt < t0
    · have hc2 : e.expiresAt < t0 := by
        rcases hcond with h | h
        · exact absurd h hk0
        · exact h
      have hstep : evictScan ((k, e) :: rest) k0 t0 = evictScan rest k e.expiresAt := by
        simp [evictScan, hcond]
      rw [hstep]
      obtain ⟨h1, h2, h3, h4⟩ := ih k e.expiresAt hk hrest
      refine ⟨h1, le_trans h2 hc2.le, fun p hp => ?_, ?_⟩
      · rcases List.mem_cons.mp hp with h | h
        · rw [h]
          exact h2
        · exact h3 p h
      · rcases h4 with heq | ⟨p, hp, hid, hex⟩
        · exact Or.inr ⟨(k, e), List.mem_cons_self _ _, by rw [heq], by rw [heq]⟩
        · exact Or.inr ⟨p, List.mem_cons_of_mem _ hp, hid, hex⟩
    · have hstep : evictScan ((k, e) :: rest) k0 t0 = evictScan rest k0 t0 := by
        simp [evictScan, hcond]
      rw [hstep]
      push_neg at hcond
      obtain ⟨h1, h2, h3, h4⟩ := ih k0 t0 hk0 hrest
      refine ⟨h1, h2, fun p hp => ?_, ?_⟩
      · rcases List.mem_cons.mp hp with h | h
        · rw [h]
          exact le_trans h2 hcond.2
        · exact h3 p h
      · rcases h4 with heq | ⟨p, hp, hid, hex⟩
        · exact Or.inl heq
        · exact Or.inr ⟨p, List.mem_cons_of_mem _ hp, hid, hex⟩

/-- Deleting a key that is present shortens the list by exactly one. -/
theorem removeA_length_mem (l : List (String × cacheEntry)) (k : String)
    (h : ∃ e, (k, e) ∈ l) : (removeA l k).length + 1 = l.length := by
  induction l with
  | nil => simp at h
  | cons q rest ih =>
    obtain ⟨k2, v2⟩ := q
    by_cases hk : k2 = k
    · simp [removeA, hk]
    · have hmem : ∃ e, (k, e) ∈ rest := by
        obtain ⟨e, he⟩ := h
        rcases List.mem_cons.mp he with hh | hh
        · exact absurd (congrArg Prod.fst hh).symm hk
        · exact ⟨e, hh⟩
      have := ih hmem
      simp only [removeA, if_neg hk, List.length_cons]
      omega

/-- Inserting grows the list by at most one. -/
theorem upsertA_length (l : List (String × cacheEntry)) (k : String) (v : cacheEntry) :
    (upsertA l k v).length ≤ l.length + 1 := by
  induction l with
  | nil => simp [upsertA]
  | cons q rest ih =>
    obtain ⟨k2, v2⟩ := q
    by_cases h : k2 = k
    · simp [upsertA, h]
    · simp only [upsertA, if_neg h, List.length_cons]
      omega

/-- On a nonempty cache whose keys avoid the `""` sentinel, `evictOldest`
removes the key of an entry with minimal `expiresAt`. -/
theorem evictOldest_spec (c : Cache) (hne : ¬ c.entries = [])
    (hKeys : ∀ p ∈ c.entries, ¬ p.1 = "") :
    ∃ p ∈ c.entries, (∀ q ∈ c.entries, p.2.expiresAt ≤ q.2.expiresAt) ∧
      (evictOldest c).entries = removeA c.entries p.1 ∧
      (evictOldest c).entries.length + 1 = c.entries.length := by
  match hE : c.entries with
  | [] => exact absurd hE hne
  | (k, e) :: rest =>
    have hk : ¬ k = "" := hKeys (k, e) (by rw [hE]; simp)
    have hrest : ∀ p ∈ rest, ¬ p.1 = "" := fun p hp =>
      hKeys p (by rw [hE]; exact List.mem_cons_of_mem _ hp)
    have hstep : evictScan ((k, e) :: rest) "" 0 = evictScan rest k e.expiresAt := by
      simp [evictScan]
    obtain ⟨h1, h2, h3, h4⟩ := evictScan_spec rest k e.expiresAt hk hrest
    set r := evictScan rest k e.expiresAt with hr
    have hmem : ∃ p ∈ (k, e) :: rest, r.1 = p.1 ∧ r.2 = p.2.expiresAt := by
      rcases h4 with heq | ⟨p, hp, hid, hex⟩
      · exact ⟨(k, e), List.mem_cons_self _ _, by rw [heq], by rw [heq]⟩
      · exact ⟨p, List.mem_cons_of_mem _ hp, hid, hex⟩
    obtain ⟨p, hp, hid, hex⟩ := hmem
    have hEv : (evictOldest c).entries = removeA ((k, e) :: rest) p.1 := by
      simp only [evictOldest, hE, hstep, ← hr, if_neg h1, ← hid]
    refine ⟨p, hp, fun q hq => ?_, hEv, ?_⟩
    · rcases List.mem_cons.mp hq with h | h
      · rw [h, ← hex]
        exact h2
      · rw [← hex]
        exact h3 q h
    · have hpmem : ∃ e2, (p.1, e2) ∈ (k, e) :: rest := ⟨p.2, by simpa using hp⟩
      have hlen := removeA_length_mem ((k, e) :: rest) p.1 hpmem
      rw [hEv]
      omega

/-- A response for the S3 eviction scenario whose single answer record
carries the given TTL. -/
def s3msg (ttl : Nat) : Msg :=
  { id := 1, rcode := 0, question := [], answer := [{ ttl := ttl, rdata := Rdata.other }] }

/-- S3 scenario, first insert: MaxSize 2, entry `a` expiring at t+10. -/
def s3c1 : Cache := CacheSet 1000 (NewCache 300 2) "a" 1 (s3msg 10)

/-- S3 scenario, second insert: entry `b` expiring at t+20. -/
def s3c2 : Cache := CacheSet 1000 s3c1 "b" 1 (s3msg 20)

/-- S3 scenario, third insert into the full cache: entry `c` expiring at
t+30. -/
def s3c3 : Cache := CacheSet 1000 s3c2 "c" 1 (s3msg 30)

/-- C6: the cache never grows beyond `maxSize` (for the positive capacities
the program uses); an insertion into a cache at capacity evicts the key of an
entry with the earliest `expiresAt` and stores the new entry in its stead;
and in the S3 scenario (MaxSize 2; inserts expiring at t+10, t+20, t+30) the
cache ends up containing exactly B and C. -/
theorem C6_cache_capacity (c : Cache) (now : Nat) (domain : String) (qtype : Nat) (msg : Msg)
    (hMax : 1 ≤ c.maxSize) (hSize : c.entries.length ≤ c.maxSize)
    (hKeys : ∀ p ∈ c.entries, ¬ p.1 = "") :
    (CacheSet now c domain qtype msg).entries.length ≤ c.maxSize ∧
    (c.entries.length = c.maxSize → ¬ computeTTL c.ttl msg < 10 →
      ∃ p ∈ c.entries, (∀ q ∈ c.entries, p.2.expiresAt ≤ q.2.expiresAt) ∧
        (CacheSet now c domain qtype msg).entries =
          upsertA (removeA c.entries p.1) (cacheKey domain qtype)
            { msg := msg, expiresAt := now + computeTTL c.ttl msg }) ∧
    s3c3.entries =
      [("b:A", { msg := s3msg 20, expiresAt := 1020 }),
       ("c:A", { msg := s3msg 30, expiresAt := 1030 })] := by
  refine ⟨?_, ?_, by decide⟩
  · by_cases h10 : computeTTL c.ttl msg < 10
    · simp only [CacheSet, if_pos h10]
      exact hSize
    · simp only [CacheSet, if_neg h10]
      by_cases hfull : c.entries.length ≥ c.maxSize
      · have hEq : c.entries.length = c.maxSize := le_antisymm hSize hfull
        have hne : ¬ c.entries = [] := by
          intro h
          rw [h] at hEq
          simp at hEq
          omega
        obtain ⟨p, hp, hmin, hEv, hlen⟩ := evictOldest_spec c hne hKeys
        simp only [if_pos hfull]
        have := upsertA_length (evictOldest c).entries (cacheKey domain qtype)
          { msg := msg, expiresAt := now + computeTTL c.ttl msg }
        omega
      · simp only [if_neg hfull]
        have := upsertA_length c.entries (cacheKey domain qtype)
          { msg := msg, expiresAt := now + computeTTL c.ttl msg }
        omega
  · intro hEq h10
    have hfull : c.entries.length ≥ c.maxSize := le_of_eq hEq.symm
    have hne : ¬ c.entries = [] := by
      intro h
      rw [h] at hEq
      simp at hEq
      omega
    obtain ⟨p, hp, hmin, hEv, hlen⟩ := evictOldest_spec c hne hKeys
    refine ⟨p, hp, hmin, ?_⟩
    simp only [CacheSet, if_neg h10, if_pos hfull, hEv]

/-- C6 witness: the capacity bound applied to the S3 cache at capacity. -/
theorem C6_witness :
    1 ≤ s3c2.maxSize ∧ s3c2.entries.length ≤ s3c2.maxSize ∧
      (CacheSet 1000 s3c2 "c" 1 (s3msg 30)).entries.length ≤ s3c2.maxSize := by
  refine ⟨by decide, by decide, ?_⟩
  exact (C6_cache_capacity s3c2 1000 "c" 1 (s3msg 30) (by decide) (by decide) (by decide)).1

/-! ## DNS proxy (src/internal/dns/proxy.go)

The proxy state keeps the cache, the compiled forwarder rules and the two
counters.  Network exchanges (upstream UDP, DoH) are oracles: an `Option Msg`
is the response, `none` standing for a failed exchange.  The written reply is
returned (`none` standing for the `dns.HandleFailed` server-failure reply). -/

/-- `dns.RcodeNameError` (NXDOMAIN). -/
def RcodeNameError : Nat := 3

/-- `net.IPv4zero` (0.0.0.0), in canonical 4-byte form. -/
def IPv4zero : List Nat := [0, 0, 0, 0]

/-- `net.IPv6zero` (`::`), in canonical 16-byte form. -/
def IPv6zero : List Nat := [0, 0, 0, 0, 0, 0, 0, 0, 0, 0, 0, 0, 0, 0, 0, 0]

/-- Embedding of `isBlockedResponse`: NXDOMAIN, or any A answer equal to
0.0.0.0, or any AAAA answer equal to `::` (`IP.Equal` is modelled as equality
of the canonical byte lists). -/
def isBlockedResponse (resp : Msg) : Bool :=
  if resp.rcode = RcodeNameError then true
  else
    resp.answer.any fun ans =>
      match ans.rdata with
      | Rdata.A ip => ip == IPv4zero
      | Rdata.AAAA ip => ip == IPv6zero
      | Rdata.other => false

/-- The proxy state (`Proxy`): cache, compiled forwarder rules, counters. -/
structure Proxy where
  cache : Cache
  forwarders : List forwarderRule
  queriesTotal : Nat
  queriesBlocked : Nat
deriving DecidableEq

/-- Embedding of `Proxy.forwardToDoH` on a completed exchange: on success,
cache under the lowercased question name, bump `queriesBlocked` iff the
response is a block, and write the response; on failure write a
server-failure reply and change nothing. -/
def forwardToDoH (now : Nat) (p : Proxy) (r : Msg) (resp : Option Msg) : Proxy × Option Msg :=
  match resp with
  | none => (p, none)
  | some resp =>
    let p1 :=
      match r.question with
      | [] => p
      | q :: _ => { p with cache := CacheSet now p.cache (lowerStr q.1) q.2 resp }
    let p2 :=
      if isBlockedResponse resp then { p1 with queriesBlocked := p1.queriesBlocked + 1 }
      else p1
    (p2, some resp)

/-- Embedding of `Proxy.forwardToServer` on a completed exchange: on success,
cache under the lowercased question name and write the response; on failure
write a server-failure reply.  No block counting happens on this path. -/
def forwardToServer (now : Nat) (p : Proxy) (r : Msg) (resp : Option Msg) : Proxy × Option Msg :=
  match resp with
  | none => (p, none)
  | some resp =>
    let p1 :=
      match r.question with
      | [] => p
      | q :: _ => { p with cache := CacheSet now p.cache (lowerStr q.1) q.2 resp }
    (p1, some resp)

/-- Embedding of `Proxy.handleQuery`: count the query, answer empty questions
with a failure, then cache → matcher → (split server | DoH). -/
def handleQuery (now : Nat) (p : Proxy) (r : Msg) (serverResp dohResp : Option Msg) :
    Proxy × Option Msg :=
  let p0 := { p with queriesTotal := p.queriesTotal + 1 }
  match r.question with
  | [] => (p0, none)
  | q :: _ =>
    let qname := lowerStr q.1
    match CacheGet now p0.cache qname q.2 with
    | some cached => (p0, some { cached with id := r.id })
    | none =>
      if ¬ Match p0.forwarders qname = "" then forwardToServer now p0 r serverResp
      else forwardToDoH now p0 r dohResp

/-- A blocked (NXDOMAIN) response and a proxy state used to exercise the
split-DNS forwarding path. -/
def respNX : Msg := { id := 5, rcode := 3, question := [("blocked.corp.", 1)], answer := [] }

/-- A query whose name the S1 rules route to the split server. -/
def queryQ : Msg := { id := 5, rcode := 0, question := [("blocked.corp.", 1)], answer := [] }

/-- A proxy state with some prior counter values. -/
def proxyP0 : Proxy :=
  { cache := NewCache 300 10000, forwarders := NewForwarderMatcher rulesS1,
    queriesTotal := 4, queriesBlocked := 2 }

/-- C4 counterexample: a response that is a block (NXDOMAIN) forwarded on the
split-DNS path leaves `queriesBlocked` unchanged, though the claim requires
it to be incremented on every forwarded blocked response. -/
theorem C4_cex_split_path_not_counted :
    isBlockedResponse respNX = true ∧
      (forwardToServer 0 proxyP0 queryQ (some respNX)).1.queriesBlocked =
        proxyP0.queriesBlocked ∧
      (handleQuery 0 proxyP0 queryQ (some respNX) none).1.queriesBlocked =
        proxyP0.queriesBlocked := by
  decide

/-- C4 (amended): only the DoH path counts blocks: after a successful DoH
forward, `queriesBlocked` is incremented exactly when the response is a
block; a failed DoH forward and the split-DNS path (success or failure)
leave the counter unchanged. -/
theorem C4_blocked_counter (now : Nat) (p : Proxy) (r : Msg) (resp : Msg)
    (respOpt : Option Msg) :
    (forwardToDoH now p r (some resp)).1.queriesBlocked =
      (if isBlockedResponse resp then p.queriesBlocked + 1 else p.queriesBlocked) ∧
    (forwardToDoH now p r none).1.queriesBlocked = p.queriesBlocked ∧
    (forwardToServer now p r respOpt).1.queriesBlocked = p.queriesBlocked := by
  refine ⟨?_, rfl, ?_⟩
  · simp only [forwardToDoH]
    cases hq : r.question <;> cases hb : isBlockedResponse resp <;> simp [hb]
  · cases respOpt with
    | none => rfl
    | some resp2 =>
      simp only [forwardToServer]
      cases hq : r.question <;> rfl

/-! ## DoH client (src/internal/dns/doh.go)

The bootstrap lookups (`resolveWithDNS`) are an oracle from bootstrap server
address to the first A record it returns, `none` standing for a failed
exchange.  URL and address parsing model the `net/url` and `net` stdlib
behavior on the ASCII host/port shapes this program uses (no userinfo, no
IPv6 literal upstreams). -/

/-- Index of the last occurrence of a character. -/
def lastIdxOf (c : Char) : List Char → Option Nat
  | [] => none
  | x :: xs =>
    match lastIdxOf c xs with
    | some i => some (i + 1)
    | none => if x = c then some 0 else none

/-- Model of `net.SplitHostPort`: split at the last colon; a host containing
a colon must be bracketed; no colon at all is an error. -/
def splitHostPort (s : String) : Option (String × String) :=
  match lastIdxOf ':' s.data with
  | none => none
  | some i =>
    let host := String.mk (s.data.take i)
    let port := String.mk (s.data.drop (i + 1))
    if host.data.contains ':' then
      if strStarts host "[" && strEnds host "]" then
        some (String.mk (host.data.drop 1).dropLast, port)
      else none
    else if host.data.contains '[' || host.data.contains ']' then none
    else some (host, port)

/-- Model of `net.JoinHostPort`. -/
def joinHostPort (host port : String) : String :=
  if host.data.contains ':' then "[" ++ host ++ "]:" ++ port else host ++ ":" ++ port

/-- Characters after the first `://`, if any. -/
def dropSchemeSep : List Char → Option (List Char)
  | [] => none
  | ':' :: '/' :: '/' :: rest => some rest
  | _ :: xs => dropSchemeSep xs

/-- Characters before the first occurrence of `c`. -/
def takeUntil (c : Char) : List Char → List Char
  | [] => []
  | x :: xs => if x = c then [] else x :: takeUntil c xs

/-- Model of `url.URL.Hostname()` on a host[:port] authority: strip a valid
 (possibly empty) numeric port after the last colon, then strip brackets. -/
def hostnameOfHostPort (cs : List Char) : String :=
  let host :=
    match lastIdxOf ':' cs with
    | none => cs
    | some i => if (cs.drop (i + 1)).all Char.isDigit then cs.take i else cs
  let host :=
    if strStarts (String.mk host) "[" && strEnds (String.mk host) "]" then
      (host.drop 1).dropLast
    else host
  String.mk host

/-- Hostname of a URL: the authority between `://` and the next `/`, with the
port stripped; URLs without `://` parse with an empty host, as in `net/url`. -/
def urlHostname (s : String) : String :=
  match dropSchemeSep s.data with
  | none => ""
  | some rest => hostnameOfHostPort (takeUntil '/' rest)

/-- Split on a character (model of `strings.Split` with a one-character
separator; always returns at least one piece). -/
def splitCh (c : Char) : List Char → List (List Char)
  | [] => [[]]
  | x :: xs =>
    let r := splitCh c xs
    if x = c then [] :: r
    else
      match r with
      | [] => [[x]]
      | h :: t => (x :: h) :: t

/-- One dotted-decimal octet: digits only, value at most 255, no leading
zero (as `net.ParseIP` requires). -/
def parseDecOctet (cs : List Char) : Option Nat :=
  if cs = [] then none
  else if ¬ cs.all Char.isDigit then none
  else if 1 < cs.length ∧ cs.head? = some '0' then none
  else
    let n := cs.foldl (fun a c => a * 10 + (c.toNat - 48)) 0
    if n ≤ 255 ∧ cs.length ≤ 3 then some n else none

/-- Model of `net.ParseIP` restricted to IPv4 dotted-quad literals. -/
def parseIPv4 (s : String) : Option (List Nat) :=
  match (splitCh '.' s.data).mapM parseDecOctet with
  | some parts => if parts.length = 4 then some parts else none
  | none => none

/-- Model of `net.IP.String()` for a parsed IPv4 address. -/
def ipv4String (ip : List Nat) : String :=
  String.intercalate "." (ip.map fun n => Nat.repr n)

/-- The fixed bootstrap resolver list (`bootstrapDNS`). -/
def bootstrapDNS : List String := ["1.1.1.1:53", "8.8.8.8:53", "9.9.9.9:53"]

/-- The DoH client state (`DoHClient`): the fields the embedded logic reads.
`serverIP` is `""` while bootstrap resolution has not succeeded. -/
structure DoHClient where
  serverURL : String
  profile : String
  serverIP : String
deriving DecidableEq

/-- The loop of `resolveServerIP` over the bootstrap list: first bootstrap
server whose lookup succeeds with a nonempty address wins; `""` if all
fail. -/
def firstResolve (env : String → Option String) : List String → String
  | [] => ""
  | b :: rest =>
    match env b with
    | some ip => if ip = "" then firstResolve env rest else ip
    | none => firstResolve env rest

/-- Embedding of `resolveServerIP`: an IP-literal hostname is used directly;
otherwise the bootstrap servers are tried in order; on total failure the
client keeps `serverIP = ""` (a warning is logged, not an error). -/
def resolveServerIP (env : String → Option String) (serverURL : String) : String :=
  let hostname := urlHostname serverURL
  match parseIPv4 hostname with
  | some ip => ipv4String ip
  | none => firstResolve env bootstrapDNS

/-- Embedding of `NewDoHClient`: construction resolves the server IP once;
failure is non-fatal. -/
def NewDoHClient (env : String → Option String) (serverURL profile : String) : DoHClient :=
  { serverURL := serverURL, profile := profile, serverIP := resolveServerIP env serverURL }

/-- Embedding of the address rewrite in `dialContext`: only when a bootstrap
IP is available and the target host equals the upstream hostname is the
address rewritten (preserving the port); in every other case the address is
passed through to the stdlib dialer unchanged. -/
def dialAddr (c : DoHClient) (addr : String) : String :=
  if ¬ c.serverIP = "" then
    match splitHostPort addr with
    | some (host, port) =>
      if host = urlHostname c.serverURL then joinHostPort c.serverIP port else addr
    | none => addr
  else addr

/-- The request URL built by `DoHClient.Query`: the GET form with the
base64url-encoded query (abstracted as `dnsParam`) and the optional profile
parameter. -/
def queryURL (c : DoHClient) (dnsParam : String) : String :=
  let u := c.serverURL ++ "/dns-query?dns=" ++ dnsParam
  if ¬ c.profile = "" then u ++ "&profile=" ++ c.profile else u

/-- Embedding of the control flow of `DoHClient.Query` as far as C3 needs it:
the query is packed, the request URL is built and handed to the transport
unconditionally — no branch inspects `serverIP`, so there is no
UpstreamUnavailable short-circuit before the send.  The HTTP mechanics
(wire encoding, headers, status and unpack handling) are collapsed into the
`packOk` and `transport` oracles. -/
def Query (c : DoHClient) (packOk : Bool) (dnsParam : String)
    (transport : String → Option Msg) : Except String Msg :=
  if ¬ packOk then Except.error "failed to pack DNS message"
  else
    match transport (queryURL c dnsParam) with
    | none => Except.error "DoH request failed"
    | some resp => Except.ok resp

/-- A bootstrap oracle on which every lookup fails. -/
def envBootstrapFail : String → Option String := fun _ => none

/-- The S4 bootstrap oracle: lookups return 203.0.113.9. -/
def envS4 : String → Option String := fun _ => some "203.0.113.9"

/-- A client constructed while bootstrap resolution fails. -/
def dohNoIP : DoHClient := NewDoHClient envBootstrapFail "https://filter.example" ""

/-- C3 counterexample: with bootstrap resolution failed (`serverIP = ""`), a
dial to the upstream hostname is passed through unchanged — it is resolved by
the system dialer rather than rewritten — and a query is still sent (and here
succeeds) instead of failing with UpstreamUnavailable. -/
theorem C3_cex_no_unavailable_gate :
    dohNoIP.serverIP = "" ∧
      dialAddr dohNoIP "filter.example:443" = "filter.example:443" ∧
      (Query dohNoIP true "AAAA" fun _ => some respNX).toOption = some respNX := by
  decide

/-- C3 (amended): when bootstrap resolution has succeeded, every dial whose
target host equals the configured upstream hostname is rewritten to the
bootstrap IP with the port preserved, and other dials are unchanged; when it
has not succeeded, every dial address is passed through unchanged (so the
hostname is resolved by the system dialer; queries are not gated on the
bootstrap result). -/
theorem C3_dial_rewrite (c : DoHClient) (addr host port : String) :
    (¬ c.serverIP = "" → splitHostPort addr = some (host, port) →
      host = urlHostname c.serverURL → dialAddr c addr = joinHostPort c.serverIP port) ∧
    (¬ c.serverIP = "" → splitHostPort addr = some (host, port) →
      ¬ host = urlHostname c.serverURL → dialAddr c addr = addr) ∧
    (c.serverIP = "" → dialAddr c addr = addr) := by
  refine ⟨fun h1 h2 h3 => ?_, fun h1 h2 h3 => ?_, fun h1 => ?_⟩
  · simp [dialAddr, h1, h2, h3]
  · simp [dialAddr, h1, h2, h3]
  · simp [dialAddr, h1]

/-- C3 witness: the S4 scenario: with the bootstrap answer 203.0.113.9 the
first dial to `filter.example:443` is rewritten to `203.0.113.9:443`. -/
theorem C3_witness :
    ¬ (NewDoHClient envS4 "https://filter.example" "").serverIP = "" ∧
      splitHostPort "filter.example:443" = some ("filter.example", "443") ∧
      "filter.example" = urlHostname "https://filter.example" ∧
      dialAddr (NewDoHClient envS4 "https://filter.example" "") "filter.example:443" =
        joinHostPort (NewDoHClient envS4 "https://filter.example" "").serverIP "443" ∧
      joinHostPort (NewDoHClient envS4 "https://filter.example" "").serverIP "443" =
        "203.0.113.9:443" := by
  refine ⟨by decide, by decide, by decide, ?_, by decide⟩
  exact (C3_dial_rewrite (NewDoHClient envS4 "https://filter.example" "")
    "filter.example:443" "filter.example" "443").1 (by decide) (by decide) (by decide)

/-! ## System DNS mutator (src/internal/system/dns_linux.go and the backup
store)

The Linux host state visible to the mutator is a record: the JSON backup
file, `/etc/resolv.conf` and its `.filterdns.bak` sibling, the per-interface
settings applied through `resolvectl`, and the per-connection settings stored
by NetworkManager.  External commands and file-system writes succeed or fail
according to a `SysEnv` oracle; each function also emits a trace of events
(backup writes, resolver mutations, restores, backup deletions) in execution
order. -/

/-- The Linux payload of the persistent backup (`LinuxDNSBackup`). -/
structure LinuxDNSBackup where
  system : String
  connectionName : String := ""
  originalDNS : List String := []
  ignoreAutoDNS : Bool := false
  iface : String := ""
  resolvConfModified : Bool := false
deriving DecidableEq

/-- The persistent backup document (`DNSBackup`; only the Linux payload is
modelled, the code under test being the Linux implementation). -/
structure DNSBackup where
  createdAt : Nat := 0
  linux : Option LinuxDNSBackup := none
  dnsModified : Bool := false
deriving DecidableEq

/-- A NetworkManager connection's DNS-related properties, as the raw `nmcli`
property values (`ipv4.dns`, `ipv4.ignore-auto-dns`). -/
structure NMConn where
  dns : String
  ignoreAuto : String
deriving DecidableEq

/-- The mutator-visible host state. -/
structure SysState where
  jsonBackup : Option DNSBackup
  resolvConf : Option String
  sibling : Option String
  resolvedDNS : List (String × String)
  resolvedRoute : List (String × Bool)
  nmConn : List (String × NMConn)
deriving DecidableEq

/-- Generic association-list get. -/
def aget {β : Type} : List (String × β) → String → Option β
  | [], _ => none
  | (k2, v) :: rest, k => if k2 = k then some v else aget rest k

/-- Generic association-list set. -/
def aset {β : Type} : List (String × β) → String → β → List (String × β)
  | [], k, v => [(k, v)]
  | (k2, v2) :: rest, k, v =>
    if k2 = k then (k, v) :: rest else (k2, v2) :: aset rest k v

/-- Generic association-list delete. -/
def adel {β : Type} : List (String × β) → String → List (String × β)
  | [], _ => []
  | (k2, v2) :: rest, k => if k2 = k then rest else (k2, v2) :: adel rest k

/-- The environment oracle: detection results, command outputs, and the
success of each external command or file-system write. -/
structure SysEnv where
  sdResolved : Bool
  nm : Bool
  defaultIface : Option String
  nmActiveOutput : Option String
  saveBackupOk : Bool
  clearBackupOk : Bool
  resolvectlDnsOk : Bool
  resolvectlRouteOk : Bool
  resolvectlRevertOk : Bool
  nmModifyOk : Bool
  nmUpOk : Bool
  writeSiblingOk : Bool
  writeResolvOk : Bool
  removeSiblingOk : Bool
  now : Nat
deriving DecidableEq

/-- Trace events: backup writes, resolver mutations, restorations, backup
deletions. -/
inductive Ev where
  | savedJson
  | savedSibling
  | mutate
  | restore
  | deletedJson
  | deletedSibling
deriving DecidableEq

/-- Embedding of `SaveBackup`: stamps the document and writes the JSON file;
`none` is a write failure. -/
def SaveBackup (env : SysEnv) (s : SysState) (b : DNSBackup) : Option SysState :=
  if env.saveBackupOk then
    some { s with jsonBackup := some { b with createdAt := env.now, dnsModified := true } }
  else none

/-- Embedding of `ClearBackup` as its callers use it: every call site
discards its error, so a failed removal simply leaves the file in place
(removing a missing file is a no-op success). -/
def ClearBackup (env : SysEnv) (s : SysState) : SysState × List Ev :=
  if s.jsonBackup.isSome ∧ env.clearBackupOk then
    ({ s with jsonBackup := none }, [Ev.deletedJson])
  else (s, [])

/-- Embedding of `LoadBackup` (state reads do not fail in the model). -/
def LoadBackup (s : SysState) : Option DNSBackup := s.jsonBackup

/-- Embedding of `setDNSSystemdResolved`: find the default interface, save
the backup, then `resolvectl dns` and best-effort `resolvectl
default-route`. -/
def setDNSSystemdResolved (env : SysEnv) (s : SysState) (server : String) :
    Except String SysState × List Ev :=
  match env.defaultIface with
  | none => (Except.error "failed to get default interface", [])
  | some iface =>
    match SaveBackup env s { linux := some { system := "systemd-resolved", iface := iface } } with
    | none => (Except.error "failed to save DNS backup", [])
    | some s1 =>
      if ¬ env.resolvectlDnsOk then (Except.error "resolvectl failed", [Ev.savedJson])
      else
        let s2 := { s1 with resolvedDNS := aset s1.resolvedDNS iface server }
        if env.resolvectlRouteOk then
          (Except.ok { s2 with resolvedRoute := aset s2.resolvedRoute iface true },
            [Ev.savedJson, Ev.mutate, Ev.mutate])
        else (Except.ok s2, [Ev.savedJson, Ev.mutate])

/-- Embedding of `resetDNSSystemdResolved`: interface from the backup when
present (and nonempty), else the default interface; `resolvectl revert`;
then clear the backup (error discarded). -/
def resetDNSSystemdResolved (env : SysEnv) (s : SysState) :
    Except String SysState × List Ev :=
  let ifaceOpt :=
    match LoadBackup s with
    | some b =>
      match b.linux with
      | some lb => if ¬ lb.iface = "" then some lb.iface else env.defaultIface
      | none => env.defaultIface
    | none => env.defaultIface
  match ifaceOpt with
  | none => (Except.error "no default interface found", [])
  | some iface =>
    if ¬ env.resolvectlRevertOk then (Except.error "resolvectl revert failed", [])
    else
      let s1 := { s with resolvedDNS := adel s.resolvedDNS iface,
                         resolvedRoute := adel s.resolvedRoute iface }
      let r := ClearBackup env s1
      (Except.ok r.1, Ev.restore :: r.2)

/-- Model of ASCII whitespace for `strings.TrimSpace`. -/
def isSpaceCh (c : Char) : Bool := c = ' ' || c = '\t' || c = '\n' || c = '\r'

/-- Model of `strings.TrimSpace` (ASCII whitespace). -/
def trimStr (s : String) : String :=
  String.mk (((s.data.dropWhile isSpaceCh).reverse.dropWhile isSpaceCh).reverse)

/-- Parsing of the active-connection name in `setDNSNetworkManager`: first
line of the trimmed output, first `:`-separated field. -/
def parseActiveConnSet (out : String) : String :=
  String.mk ((splitCh ':' ((splitCh '\n' (trimStr out).data).headD [])).headD [])

/-- Parsing of the active-connection name in `resetDNSNetworkManager` (the
command prints only NAME): first line of the trimmed output. -/
def parseActiveConnReset (out : String) : String :=
  String.mk ((splitCh '\n' (trimStr out).data).headD [])

/-- Contiguous-sublist test on character lists. -/
def containsSubList (sub : List Char) : List Char → Bool
  | [] => sub.isPrefixOf []
  | c :: rest => if sub.isPrefixOf (c :: rest) then true else containsSubList sub rest

/-- Model of `strings.Contains`. -/
def containsSub (s sub : String) : Bool := containsSubList sub.data s.data

/-- Embedding of `getNetworkManagerDNS`: read the connection's `ipv4.dns`
list (empty when unset or `--`) and whether `ipv4.ignore-auto-dns` contains
`yes`; query errors are tolerated and leave the zero values. -/
def getNetworkManagerDNS (s : SysState) (connName : String) : List String × Bool :=
  match aget s.nmConn connName with
  | none => ([], false)
  | some conn =>
    let dns :=
      if ¬ conn.dns = "" ∧ ¬ conn.dns = "--" then (splitCh ',' conn.dns.data).map String.mk
      else []
    (dns, containsSub conn.ignoreAuto "yes")

/-- Embedding of `setDNSNetworkManager`: read the first active connection,
back up its current settings, then `nmcli connection modify` and `nmcli
connection up`. -/
def setDNSNetworkManager (env : SysEnv) (s : SysState) (server : String) :
    Except String SysState × List Ev :=
  match env.nmActiveOutput with
  | none => (Except.error "failed to get active connection", [])
  | some out =>
    let connName := parseActiveConnSet out
    let cur := getNetworkManagerDNS s connName
    let lb : LinuxDNSBackup :=
      { system := "networkmanager", connectionName := connName,
        originalDNS := cur.1, ignoreAutoDNS := cur.2 }
    match SaveBackup env s { linux := some lb } with
    | none => (Except.error "failed to save DNS backup", [])
    | some s1 =>
      if ¬ env.nmModifyOk then (Except.error "nmcli modify failed", [Ev.savedJson])
      else
        let s2 := { s1 with
          nmConn := aset s1.nmConn connName { dns := server, ignoreAuto := "yes" } }
        if ¬ env.nmUpOk then (Except.error "nmcli up failed", [Ev.savedJson, Ev.mutate])
        else (Except.ok s2, [Ev.savedJson, Ev.mutate])

/-- The write-back tail shared by both arms of `resetDNSNetworkManager`:
restore the original values (empty and `no` when no original DNS), modify,
best-effort reactivate, clear the backup (error discarded). -/
def resetNMwith (env : SysEnv) (s : SysState) (connName : String)
    (originalDNS : List String) (ignoreAutoDNS : Bool) : Except String SysState × List Ev :=
  let dnsValue := if ¬ originalDNS = [] then String.intercalate "," originalDNS else ""
  let ignoreAutoValue :=
    if ¬ originalDNS = [] then (if ignoreAutoDNS then "yes" else "no") else "no"
  if ¬ env.nmModifyOk then (Except.error "nmcli modify failed", [])
  else
    let s1 := { s with
      nmConn := aset s.nmConn connName { dns := dnsValue, ignoreAuto := ignoreAutoValue } }
    let r := ClearBackup env s1
    (Except.ok r.1, Ev.restore :: r.2)

/-- Embedding of `resetDNSNetworkManager`: connection and originals from the
backup; with no recorded connection, fall back to the first currently active
connection, and if even that query fails, clear the backup and succeed. -/
def resetDNSNetworkManager (env : SysEnv) (s : SysState) :
    Except String SysState × List Ev :=
  let prev :=
    match LoadBackup s with
    | some b =>
      match b.linux with
      | some lb => (lb.connectionName, lb.originalDNS, lb.ignoreAutoDNS)
      | none => ("", [], false)
    | none => ("", [], false)
  if prev.1 = "" then
    match env.nmActiveOutput with
    | none =>
      let r := ClearBackup env s
      (Except.ok r.1, r.2)
    | some out => resetNMwith env s (parseActiveConnReset out) prev.2.1 prev.2.2
  else resetNMwith env s prev.1 prev.2.1 prev.2.2

/-- Embedding of `setDNSResolvConf`, after the sibling backup is ensured:
write the JSON backup (error discarded, dns_linux.go line 322), then
overwrite `/etc/resolv.conf`. -/
def setDNSResolvConfTail (env : SysEnv) (s : SysState) (server : String) (tr : List Ev) :
    Except String SysState × List Ev :=
  let lb : LinuxDNSBackup := { system := "resolvconf", resolvConfModified := true }
  let step :=
    match SaveBackup env s { linux := some lb } with
    | some s1 => (s1, tr ++ [Ev.savedJson])
    | none => (s, tr)
  if ¬ env.writeResolvOk then (Except.error "failed to write resolv.conf", step.2)
  else
    let content := "# Generated by FilterDNS Client\nnameserver " ++ server ++ "\n"
    (Except.ok { step.1 with resolvConf := some content }, step.2 ++ [Ev.mutate])

/-- Embedding of `setDNSResolvConf`: copy `/etc/resolv.conf` to the sibling
backup (only when the sibling does not already exist, both steps
error-checked), then the tail above. -/
def setDNSResolvConf (env : SysEnv) (s : SysState) (server : String) :
    Except String SysState × List Ev :=
  match s.sibling with
  | none =>
    match s.resolvConf with
    | none => (Except.error "failed to read resolv.conf", [])
    | some content =>
      if ¬ env.writeSiblingOk then (Except.error "failed to backup resolv.conf", [])
      else setDNSResolvConfTail env { s with sibling := some content } server [Ev.savedSibling]
  | some _ => setDNSResolvConfTail env s server []

/-- Embedding of `resetDNSResolvConf`: with no sibling, clear the JSON backup
and succeed; otherwise copy the sibling back, remove it (error discarded),
and clear the JSON backup (error discarded). -/
def resetDNSResolvConf (env : SysEnv) (s : SysState) :
    Except String SysState × List Ev :=
  match s.sibling with
  | none =>
    let r := ClearBackup env s
    (Except.ok r.1, r.2)
  | some content =>
    if ¬ env.writeResolvOk then (Except.error "failed to restore resolv.conf", [])
    else
      let s1 := { s with resolvConf := some content }
      let step :=
        if env.removeSiblingOk then
          (({ s1 with sibling := none } : SysState), [Ev.deletedSibling])
        else (s1, ([] : List Ev))
      let r := ClearBackup env step.1
      (Except.ok r.1, Ev.restore :: (step.2 ++ r.2))

/-- Embedding of `setDNS` on Linux: systemd-resolved, else NetworkManager,
else the resolv.conf fallback. -/
def setDNS (env : SysEnv) (s : SysState) (server : String) :
    Except String SysState × List Ev :=
  if env.sdResolved then setDNSSystemdResolved env s server
  else if env.nm then setDNSNetworkManager env s server
  else setDNSResolvConf env s server

/-- Embedding of `resetDNS` on Linux. -/
def resetDNS (env : SysEnv) (s : SysState) : Except String SysState × List Ev :=
  if env.sdResolved then resetDNSSystemdResolved env s
  else if env.nm then resetDNSNetworkManager env s
  else resetDNSResolvConf env s

/-- A persistent backup artifact (the JSON backup file or the resolv.conf
sibling copy) is on disk. -/
def backupOnDisk (s : SysState) : Bool := s.jsonBackup.isSome || s.sibling.isSome

/-- No mutation event happens before the first backup-write event: scanning
left to right, a mutation must not be seen before a backup write. -/
def backupBeforeMutate : List Ev → Bool
  | [] => true
  | Ev.savedJson :: _ => true
  | Ev.savedSibling :: _ => true
  | Ev.mutate :: _ => false
  | _ :: rest => backupBeforeMutate rest

/-- No restoration event occurs in a list. -/
def noRestoreIn (l : List Ev) : Bool := ! l.contains Ev.restore

/-- Backup deletions happen only after all restoration events: after the
first deletion no restore follows. -/
def restoresPrecedeDeletes : List Ev → Bool
  | [] => true
  | Ev.deletedJson :: rest => noRestoreIn rest
  | Ev.deletedSibling :: rest => noRestoreIn rest
  | _ :: rest => restoresPrecedeDeletes rest

/-- The systemd-resolved install path writes its backup before mutating, and
every success leaves a backup artifact on disk. -/
theorem setSD_props (env : SysEnv) (s : SysState) (server : String) :
    backupBeforeMutate (setDNSSystemdResolved env s server).2 = true ∧
    ∀ s2, (setDNSSystemdResolved env s server).1 = Except.ok s2 → backupOnDisk s2 = true := by
  obtain ⟨sd, nm, defI, nmOut, sOk, cOk, rd, rr, rv, nMod, nUp, wS, wR, rmS, now⟩ := env
  cases defI <;> cases sOk <;> cases rd <;> cases rr <;>
    simp [setDNSSystemdResolved, SaveBackup, backupBeforeMutate, backupOnDisk]

/-- The NetworkManager install path writes its backup before mutating, and
every success leaves a backup artifact on disk. -/
theorem setNM_props (env : SysEnv) (s : SysState) (server : String) :
    backupBeforeMutate (setDNSNetworkManager env s server).2 = true ∧
    ∀ s2, (setDNSNetworkManager env s server).1 = Except.ok s2 → backupOnDisk s2 = true := by
  obtain ⟨sd, nm, defI, nmOut, sOk, cOk, rd, rr, rv, nMod, nUp, wS, wR, rmS, now⟩ := env
  cases nmOut <;> cases sOk <;> cases nMod <;> cases nUp <;>
    simp [setDNSNetworkManager, SaveBackup, backupBeforeMutate, backupOnDisk]

/-- The resolv.conf install path mutates only after a backup artifact is on
disk (either written in this call or already present), and every success
leaves one on disk. -/
theorem setRC_props (env : SysEnv) (s : SysState) (server : String) :
    (backupBeforeMutate (setDNSResolvConf env s server).2 || backupOnDisk s) = true ∧
    ∀ s2, (setDNSResolvConf env s server).1 = Except.ok s2 → backupOnDisk s2 = true := by
  obtain ⟨sd, nm, defI, nmOut, sOk, cOk, rd, rr, rv, nMod, nUp, wS, wR, rmS, now⟩ := env
  obtain ⟨jb, rc, sib, rdl, rrl, nmc⟩ := s
  cases sib <;> cases rc <;> cases sOk <;> cases wS <;> cases wR <;>
    simp [setDNSResolvConf, setDNSResolvConfTail, SaveBackup, backupBeforeMutate, backupOnDisk]

/-- The systemd-resolved restore path deletes the backup only after the
restore, and on success (with the removal succeeding) the JSON backup is
gone. -/
theorem resetSD_props (env : SysEnv) (s : SysState) :
    restoresPrecedeDeletes (resetDNSSystemdResolved env s).2 = true ∧
    ∀ s2, (resetDNSSystemdResolved env s).1 = Except.ok s2 →
      env.clearBackupOk = true → s2.jsonBackup = none := by
  obtain ⟨sd, nm, defI, nmOut, sOk, cOk, rd, rr, rv, nMod, nUp, wS, wR, rmS, now⟩ := env
  obtain ⟨jb, rc, sib, rdl, rrl, nmc⟩ := s
  rcases jb with _ | ⟨ca, lnx, dm⟩
  · cases defI <;> cases rv <;> cases cOk <;>
      simp [resetDNSSystemdResolved, LoadBackup, ClearBackup, restoresPrecedeDeletes,
        noRestoreIn]
  · rcases lnx with _ | ⟨sys, cn, od, iad, ifc, rcm⟩
    · cases defI <;> cases rv <;> cases cOk <;>
        simp [resetDNSSystemdResolved, LoadBackup, ClearBackup, restoresPrecedeDeletes,
          noRestoreIn]
    · by_cases hIf : ifc = "" <;> cases defI <;> cases rv <;> cases cOk <;>
        simp [resetDNSSystemdResolved, LoadBackup, ClearBackup, restoresPrecedeDeletes,
          noRestoreIn, hIf]

/-- The NetworkManager restore path deletes the backup only after the
restore, and on success (with the removal succeeding) the JSON backup is
gone. -/
theorem resetNM_props (env : SysEnv) (s : SysState) :
    restoresPrecedeDeletes (resetDNSNetworkManager env s).2 = true ∧
    ∀ s2, (resetDNSNetworkManager env s).1 = Except.ok s2 →
      env.clearBackupOk = true → s2.jsonBackup = none := by
  obtain ⟨sd, nm, defI, nmOut, sOk, cOk, rd, rr, rv, nMod, nUp, wS, wR, rmS, now⟩ := env
  obtain ⟨jb, rc, sib, rdl, rrl, nmc⟩ := s
  rcases jb with _ | ⟨ca, lnx, dm⟩
  · cases nmOut <;> cases nMod <;> cases cOk <;>
      simp [resetDNSNetworkManager, resetNMwith, LoadBackup, ClearBackup,
        restoresPrecedeDeletes, noRestoreIn]
  · rcases lnx with _ | ⟨sys, cn, od, iad, ifc, rcm⟩
    · cases nmOut <;> cases nMod <;> cases cOk <;>
        simp [resetDNSNetworkManager, resetNMwith, LoadBackup, ClearBackup,
          restoresPrecedeDeletes, noRestoreIn]
    · by_cases hCn : cn = "" <;> cases nmOut <;> cases nMod <;> cases cOk <;>
        cases od <;>
        simp [resetDNSNetworkManager, resetNMwith, LoadBackup, ClearBackup,
          restoresPrecedeDeletes, noRestoreIn, hCn]

/-- The resolv.conf restore path deletes backups only after the restore; on
success with the removals succeeding, the JSON backup is gone — and the
sibling too. -/
theorem resetRC_props (env : SysEnv) (s : SysState) :
    restoresPrecedeDeletes (resetDNSResolvConf env s).2 = true ∧
    (∀ s2, (resetDNSResolvConf env s).1 = Except.ok s2 →
      env.clearBackupOk = true → s2.jsonBackup = none) ∧
    (∀ s2, (resetDNSResolvConf env s).1 = Except.ok s2 →
      env.clearBackupOk = true → env.removeSiblingOk = true →
        s2.jsonBackup = none ∧ s2.sibling = none) := by
  obtain ⟨sd, nm, defI, nmOut, sOk, cOk, rd, rr, rv, nMod, nUp, wS, wR, rmS, now⟩ := env
  obtain ⟨jb, rc, sib, rdl, rrl, nmc⟩ := s
  cases jb <;> cases sib <;> cases wR <;> cases rmS <;> cases cOk <;>
    simp [resetDNSResolvConf, ClearBackup, restoresPrecedeDeletes, noRestoreIn]

/-- C1 (amended): in every execution of `set_dns`, a persistent backup is on
disk before the first resolver mutation (written in this call, or — in the
resolv.conf path whose JSON write error is discarded — already present), and
every success leaves a backup artifact on disk.  In every execution of
`reset_dns`, backups are deleted only after the restoration steps, and when
the deletions succeed a successful reset leaves no JSON backup (in the
resolv.conf path, no sibling either).  Deletion failures are silently
ignored, so without that proviso a backup may survive a successful reset. -/
theorem C1_backup_lifecycle (env : SysEnv) (s : SysState) (server : String) :
    (backupBeforeMutate (setDNS env s server).2 || backupOnDisk s) = true ∧
    (∀ s2, (setDNS env s server).1 = Except.ok s2 → backupOnDisk s2 = true) ∧
    restoresPrecedeDeletes (resetDNS env s).2 = true ∧
    (∀ s2, (resetDNS env s).1 = Except.ok s2 → env.clearBackupOk = true →
      s2.jsonBackup = none) ∧
    (env.sdResolved = false → env.nm = false →
      ∀ s2, (resetDNS env s).1 = Except.ok s2 → env.clearBackupOk = true →
        env.removeSiblingOk = true → s2.jsonBackup = none ∧ s2.sibling = none) := by
  refine ⟨?_, ?_, ?_, ?_, ?_⟩
  · unfold setDNS
    by_cases hsd : env.sdResolved = true
    · rw [if_pos hsd, (setSD_props env s server).1]
      simp
    · rw [if_neg hsd]
      by_cases hnm : env.nm = true
      · rw [if_pos hnm, (setNM_props env s server).1]
        simp
      · rw [if_neg hnm]
        exact (setRC_props env s server).1
  · intro s2 h
    unfold setDNS at h
    by_cases hsd : env.sdResolved = true
    · rw [if_pos hsd] at h
      exact (setSD_props env s server).2 s2 h
    · rw [if_neg hsd] at h
      by_cases hnm : env.nm = true
      · rw [if_pos hnm] at h
        exact (setNM_props env s server).2 s2 h
      · rw [if_neg hnm] at h
        exact (setRC_props env s server).2 s2 h
  · unfold resetDNS
    by_cases hsd : env.sdResolved = true
    · rw [if_pos hsd]
      exact (resetSD_props env s).1
    · rw [if_neg hsd]
      by_cases hnm : env.nm = true
      · rw [if_pos hnm]
        exact (resetNM_props env s).1
      · rw [if_neg hnm]
        exact (resetRC_props env s).1
  · intro s2 h hc
    unfold resetDNS at h
    by_cases hsd : env.sdResolved = true
    · rw [if_pos hsd] at h
      exact (resetSD_props env s).2 s2 h hc
    · rw [if_neg hsd] at h
      by_cases hnm : env.nm = true
      · rw [if_pos hnm] at h
        exact (resetNM_props env s).2 s2 h hc
      · rw [if_neg hnm] at h
        exact (resetRC_props env s).2.1 s2 h hc
  · intro hsd hnm s2 h hc hr
    unfold resetDNS at h
    rw [if_neg (by simp [hsd]), if_neg (by simp [hnm])] at h
    exact (resetRC_props env s).2.2 s2 h hc hr

/-- An environment where detection selects the resolv.conf fallback and
every command and write succeeds. -/
def envW : SysEnv :=
  { sdResolved := false, nm := false, defaultIface := none, nmActiveOutput := none,
    saveBackupOk := true, clearBackupOk := true, resolvectlDnsOk := true,
    resolvectlRouteOk := true, resolvectlRevertOk := true, nmModifyOk := true,
    nmUpOk := true, writeSiblingOk := true, writeResolvOk := true,
    removeSiblingOk := true, now := 0 }

/-- A pristine host: user resolv.conf, no backups. -/
def stW : SysState :=
  { jsonBackup := none, resolvConf := some "nameserver 192.168.1.1\n", sibling := none,
    resolvedDNS := [], resolvedRoute := [], nmConn := [] }

/-- The resolvconf-mode backup document as written with `now = 0`. -/
def backupRC : DNSBackup :=
  { createdAt := 0, dnsModified := true,
    linux := some { system := "resolvconf", resolvConfModified := true } }

/-- The host state after `set_dns("127.0.0.1")` on `stW` in the resolv.conf
path: JSON backup written, sibling copy of the original, resolv.conf
replaced. -/
def stWafter : SysState :=
  { jsonBackup := some backupRC,
    resolvConf := some "# Generated by FilterDNS Client\nnameserver 127.0.0.1\n",
    sibling := some "nameserver 192.168.1.1\n",
    resolvedDNS := [], resolvedRoute := [], nmConn := [] }

/-- C1 witness: the lifecycle theorem applied to the concrete resolv.conf
S5-style run: set writes backups before mutating, the set result carries a
backup, reset deletes only after restoring, and the reset result (which is
the original state again) has no JSON backup. -/
theorem C1_witness :
    (backupBeforeMutate (setDNS envW stW "127.0.0.1").2 || backupOnDisk stW) = true ∧
    backupOnDisk stWafter = true ∧
    restoresPrecedeDeletes (resetDNS envW stWafter).2 = true ∧
    stW.jsonBackup = none := by
  refine ⟨(C1_backup_lifecycle envW stW "127.0.0.1").1,
    (C1_backup_lifecycle envW stW "127.0.0.1").2.1 stWafter (by decide),
    (C1_backup_lifecycle envW stWafter "127.0.0.1").2.2.1,
    (C1_backup_lifecycle envW stWafter "127.0.0.1").2.2.2.1 stW (by decide) (by decide)⟩

/-- A systemd-resolved environment in which the backup removal fails. -/
def envC1 : SysEnv :=
  { envW with sdResolved := true, defaultIface := some "eth0", clearBackupOk := false }

/-- The systemd-resolved-mode backup document for interface `eth0`. -/
def backupSD : DNSBackup :=
  { createdAt := 0, dnsModified := true,
    linux := some { system := "systemd-resolved", iface := "eth0" } }

/-- A host diverted in the systemd-resolved mode, with its backup on disk. -/
def sC1 : SysState :=
  { jsonBackup := some backupSD, resolvConf := some "nameserver 127.0.0.53\n", sibling := none,
    resolvedDNS := [("eth0", "127.0.0.1")], resolvedRoute := [("eth0", true)], nmConn := [] }

/-- The state `reset_dns` produces from `sC1` when the backup removal fails:
restored, but with the backup file still on disk. -/
def sC1r : SysState := { sC1 with resolvedDNS := [], resolvedRoute := [] }

/-- C1 counterexample: `ClearBackup`'s error is discarded by every reset
path, so `reset_dns` can succeed while the backup file remains on disk,
contradicting the claim that after a successful `reset_dns` no backup file
exists. -/
theorem C1_cex_clear_failure_ignored :
    (resetDNS envC1 sC1).1 = Except.ok sC1r ∧ sC1r.jsonBackup.isSome = true := by
  decide

/-- The effect of a no-backup reset in the systemd-resolved path: the default
interface's per-link DNS settings are reverted. -/
def resetSDeffect (s : SysState) (iface : String) : SysState :=
  { s with resolvedDNS := adel s.resolvedDNS iface,
           resolvedRoute := adel s.resolvedRoute iface }

/-- The effect of a no-backup reset in the NetworkManager path: the named
connection's DNS settings are set back to automatic. -/
def resetNMeffect (s : SysState) (conn : String) : SysState :=
  { s with nmConn := aset s.nmConn conn { dns := "", ignoreAuto := "no" } }

/-- C8 (amended): `reset_dns` with no backup on disk succeeds when the
underlying tools succeed, but it is a no-op only in the resolv.conf fallback
path; in the systemd-resolved path it still runs `resolvectl revert` on the
default interface, and in the NetworkManager path it resets the first active
connection's DNS to automatic (`ipv4.dns` empty, `ipv4.ignore-auto-dns`
no) — so the resolver configuration can change. -/
theorem C8_reset_no_backup (env : SysEnv) (s : SysState) (iface out : String)
    (hnb : s.jsonBackup = none) :
    (env.sdResolved = false → env.nm = false → s.sibling = none →
      resetDNS env s = (Except.ok s, [])) ∧
    (env.sdResolved = true → env.defaultIface = some iface →
      env.resolvectlRevertOk = true →
      resetDNS env s = (Except.ok (resetSDeffect s iface), [Ev.restore])) ∧
    (env.sdResolved = false → env.nm = true → env.nmActiveOutput = some out →
      env.nmModifyOk = true →
      resetDNS env s =
        (Except.ok (resetNMeffect s (parseActiveConnReset out)), [Ev.restore])) := by
  refine ⟨fun h1 h2 h3 => ?_, fun h1 h2 h3 => ?_, fun h1 h2 h3 h4 => ?_⟩
  · simp [resetDNS, h1, h2, resetDNSResolvConf, h3, ClearBackup, hnb]
  · simp [resetDNS, h1, resetDNSSystemdResolved, LoadBackup, hnb, h2, h3, ClearBackup,
      resetSDeffect]
  · simp [resetDNS, h1, h2, resetDNSNetworkManager, LoadBackup, hnb, h3, h4, resetNMwith,
      ClearBackup, resetNMeffect]

/-- A NetworkManager environment with all tools succeeding. -/
def envC8 : SysEnv := { envW with nm := true, nmActiveOutput := some "Wired" }

/-- A host with no backup whose active connection carries user-configured
static DNS. -/
def sC8 : SysState :=
  { jsonBackup := none, resolvConf := some "nameserver 192.168.1.1\n", sibling := none,
    resolvedDNS := [], resolvedRoute := [],
    nmConn := [("Wired", { dns := "192.168.1.1", ignoreAuto := "yes" })] }

/-- What the NetworkManager reset turns `sC8` into: the connection's static
DNS is wiped. -/
def sC8r : SysState :=
  { sC8 with nmConn := [("Wired", { dns := "", ignoreAuto := "no" })] }

/-- C8 counterexample: `reset_dns` with no backup in the NetworkManager path
succeeds but is not a no-op — it erases the connection's configured DNS
servers, contradicting the claim that the resolver configuration is left
unchanged. -/
theorem C8_cex_nm_not_noop :
    (resetDNS envC8 sC8).1 = Except.ok sC8r ∧ ¬ sC8r = sC8 := by
  decide

/-- C8 witness: the amended theorem applied to the concrete NetworkManager
host (connection DNS reset to automatic) and to a pristine resolv.conf host
(exact no-op). -/
theorem C8_witness :
    sC8.jsonBackup = none ∧
    resetDNS envC8 sC8 =
      (Except.ok (resetNMeffect sC8 (parseActiveConnReset "Wired")), [Ev.restore]) ∧
    resetDNS envW stW = (Except.ok stW, []) := by
  refine ⟨rfl, ?_, ?_⟩
  · exact (C8_reset_no_backup envC8 sC8 "eth0" "Wired" rfl).2.2 rfl rfl rfl rfl
  · exact (C8_reset_no_backup envW stW "eth0" "Wired" rfl).1 rfl rfl rfl

/-! ## Configuration store (the config package)

`Config.Forwarders` is a Go slice that can be nil; it is modelled as an
`Option (List Forwarder)` with `none` for nil.  The config directory
resolution and the file read are oracles. -/

/-- The build-time default server URL (`DefaultServerURL`). -/
def DefaultServerURL : String := "http://localhost:8080"

/-- The configuration document (`config.Config`). -/
structure Config where
  profile : String
  serverURL : String
  enabled : Bool
  autostart : Bool
  forwarders : Option (List Forwarder)
deriving DecidableEq

/-- Embedding of `config.Default`. -/
def Default : Config :=
  { profile := "", serverURL := DefaultServerURL, enabled := false, autostart := false,
    forwarders := some [] }

/-- What reading the config file yields: missing file, read error, malformed
JSON, or a decoded document (missing JSON fields decode to the Go zero
values; an absent or null `forwarders` field decodes to `none`). -/
inductive ReadResult where
  | notExist
  | ioError
  | badJson
  | ok (cfg : Config)
deriving DecidableEq

/-- The oracle for `Load`: whether `configPath` (user config dir plus
MkdirAll) succeeds, and the file read outcome. -/
structure LoadEnv where
  pathOk : Bool
  read : ReadResult
deriving DecidableEq

/-- Embedding of `config.Load`: a missing file yields the defaults with no
error; a decoded document gets an empty `serverUrl` replaced by the default
URL and a nil `forwarders` replaced by the empty list. -/
def Load (env : LoadEnv) : Except String Config :=
  if ¬ env.pathOk then Except.error "config path unavailable"
  else
    match env.read with
    | ReadResult.notExist => Except.ok Default
    | ReadResult.ioError => Except.error "read failed"
    | ReadResult.badJson => Except.error "unmarshal failed"
    | ReadResult.ok cfg =>
      let cfg1 := if cfg.serverURL = "" then { cfg with serverURL := DefaultServerURL } else cfg
      let cfg2 := if cfg1.forwarders = none then { cfg1 with forwarders := some [] } else cfg1
      Except.ok cfg2

/-- The defaulting the specification ascribes to `Load` on a decoded
document: an empty `serverUrl` is replaced by the default URL, a nil
`forwarders` by the empty list, and every other field is kept. -/
def applyDefaults (raw : Config) : Config :=
  { profile := raw.profile,
    serverURL := if raw.serverURL = "" then DefaultServerURL else raw.serverURL,
    enabled := raw.enabled, autostart := raw.autostart,
    forwarders := if raw.forwarders = none then some [] else raw.forwarders }

/-- C9: when the config file does not exist, `Load` returns the default
configuration (empty profile, default server URL, disabled, no autostart,
empty non-nil forwarder list) with no error; on a decoded document, `Load`
returns exactly the document with a nil forwarders field replaced by the
empty list and an empty serverUrl by the default URL (all other fields
kept); hence every successful `Load` returns a config whose forwarders list
is non-nil and whose server URL is nonempty. -/
theorem C9_load_defaults (env : LoadEnv) (hp : env.pathOk = true) :
    (env.read = ReadResult.notExist →
      Load env = Except.ok Default ∧ Default.profile = "" ∧
      Default.serverURL = DefaultServerURL ∧ Default.enabled = false ∧
      Default.autostart = false ∧ Default.forwarders = some []) ∧
    (∀ raw, env.read = ReadResult.ok raw → Load env = Except.ok (applyDefaults raw)) ∧
    (∀ cfg, Load env = Except.ok cfg → ¬ cfg.forwarders = none ∧ ¬ cfg.serverURL = "") := by
  obtain ⟨pOk, rd⟩ := env
  subst hp
  refine ⟨fun hr => ?_, fun raw hr => ?_, fun cfg hok => ?_⟩
  · subst hr
    exact ⟨rfl, rfl, rfl, rfl, rfl, rfl⟩
  · subst hr
    by_cases hsu : raw.serverURL = "" <;> by_cases hfw : raw.forwarders = none <;>
      simp [Load, applyDefaults, hsu, hfw]
  · cases rd with
    | notExist =>
      simp [Load, Default, DefaultServerURL] at hok ⊢
      rw [← hok]
      simp [Default, DefaultServerURL]
    | ioError => simp [Load] at hok
    | badJson => simp [Load] at hok
    | ok raw =>
      by_cases hsu : raw.serverURL = "" <;> by_cases hfw : raw.forwarders = none <;>
        simp [Load, hsu, hfw, DefaultServerURL] at hok <;> rw [← hok] <;>
        simp [hsu, hfw, DefaultServerURL]

/-- A decoded document with an empty serverUrl and a nil forwarders slice. -/
def rawC9 : Config :=
  { profile := "home", serverURL := "", enabled := true, autostart := false,
    forwarders := none }

/-- C9 witness: a missing config file at a resolvable path loads the
defaults; a decoded document with empty serverUrl and nil forwarders loads
with exactly the default URL and the empty list substituted. -/
theorem C9_witness :
    ({ pathOk := true, read := ReadResult.notExist } : LoadEnv).pathOk = true ∧
    Load { pathOk := true, read := ReadResult.notExist } = Except.ok Default ∧
    Load { pathOk := true, read := ReadResult.ok rawC9 } =
      Except.ok (applyDefaults rawC9) ∧
    applyDefaults rawC9 =
      { profile := "home", serverURL := DefaultServerURL, enabled := true,
        autostart := false, forwarders := some [] } ∧
    ¬ Default.forwarders = none ∧ ¬ Default.serverURL = "" := by
  refine ⟨rfl, ?_, ?_, by decide, ?_⟩
  · exact ((C9_load_defaults { pathOk := true, read := ReadResult.notExist } rfl).1 rfl).1
  · exact (C9_load_defaults { pathOk := true, read := ReadResult.ok rawC9 } rfl).2.1 rawC9 rfl
  · exact (C9_load_defaults { pathOk := true, read := ReadResult.notExist } rfl).2.2 Default
      ((C9_load_defaults { pathOk := true, read := ReadResult.notExist } rfl).1 rfl).1

/-! ## Daemon control plane (the daemon package)

The daemon state is its config, the running flag and the owned proxy.  The
effects of one operation are traced: proxy creation/start/stop, SetDNS,
ResetDNS, and config persistence.  `config.Save` and `system.ResetDNS`
results are discarded by the daemon, so only SetDNS success steers control
flow. -/

/-- Observable side effects of daemon operations. -/
inductive DEff where
  | newProxy
  | proxyStart
  | proxyStop
  | setDnsEff
  | resetDnsEff
  | saveConfig
deriving DecidableEq

/-- The daemon state (`Daemon`): config, proxy, running flag. -/
structure Daemon where
  config : Config
  running : Bool
  proxy : Option Proxy
deriving DecidableEq

/-- The oracle for daemon operations: whether `system.SetDNS` succeeds. -/
structure DEnv where
  setDnsOk : Bool
deriving DecidableEq

/-- Embedding of `dns.NewProxy` for a config: 5-minute/10000-entry cache and
the compiled forwarders (a nil slice compiles like an empty one). -/
def NewProxyD (cfg : Config) : Proxy :=
  { cache := NewCache 300 10000, forwarders := NewForwarderMatcher (cfg.forwarders.getD []),
    queriesTotal := 0, queriesBlocked := 0 }

/-- Embedding of `Daemon.enable`: an immediate success when already running;
`no profile configured` when the profile is empty; otherwise create and start
the proxy, call SetDNS (tearing the proxy down on failure), then mark
running, persist `enabled = true` (save error discarded). -/
def enable (env : DEnv) (d : Daemon) : Daemon × Option String × List DEff :=
  if d.running then (d, none, [])
  else if d.config.profile = "" then (d, some "no profile configured", [])
  else if ¬ env.setDnsOk then
    ({ d with proxy := none }, some "failed to set system DNS",
      [DEff.newProxy, DEff.proxyStart, DEff.setDnsEff, DEff.proxyStop])
  else
    let cfg2 := { d.config with enabled := true }
    ({ d with proxy := some (NewProxyD d.config), running := true, config := cfg2 },
      none, [DEff.newProxy, DEff.proxyStart, DEff.setDnsEff, DEff.saveConfig])

/-- Embedding of `Daemon.disable`: an immediate success when not running;
otherwise stop the proxy if owned, call ResetDNS (result discarded), mark
stopped, persist `enabled = false` (save error discarded). -/
def disable (d : Daemon) : Daemon × Option String × List DEff :=
  if ¬ d.running then (d, none, [])
  else
    let cfg2 := { d.config with enabled := false }
    ({ d with proxy := none, running := false, config := cfg2 },
      none,
      (if d.proxy.isSome then [DEff.proxyStop] else []) ++ [DEff.resetDnsEff, DEff.saveConfig])

/-- C10: enable while running and disable while stopped succeed immediately
and change nothing: the state is returned as-is and no effect occurs — no
proxy is created or stopped, SetDNS/ResetDNS is not invoked, and the config
file is not rewritten. -/
theorem C10_enable_disable_idempotent (env : DEnv) (d : Daemon) :
    (d.running = true → enable env d = (d, none, [])) ∧
    (d.running = false → disable d = (d, none, [])) := by
  refine ⟨fun h => ?_, fun h => ?_⟩
  · simp [enable, h]
  · simp [disable, h]

/-- A running daemon and a stopped daemon. -/
def dRunning : Daemon := { config := Default, running := true, proxy := some (NewProxyD Default) }

/-- A stopped daemon with no proxy. -/
def dStopped : Daemon := { config := Default, running := false, proxy := none }

/-- C10 witness: the idempotence theorem applied to a concrete running and a
concrete stopped daemon. -/
theorem C10_witness :
    dRunning.running = true ∧ enable { setDnsOk := true } dRunning = (dRunning, none, []) ∧
    dStopped.running = false ∧ disable dStopped = (dStopped, none, []) := by
  refine ⟨rfl, ?_, rfl, ?_⟩
  · exact (C10_enable_disable_idempotent { setDnsOk := true } dRunning).1 rfl
  · exact (C10_enable_disable_idempotent { setDnsOk := true } dStopped).2 rfl

end FilterDNS
